import Mathlib

/-!
Verification of the vendor runtime resolution and packaging layer:
platform-arch key derivation, enhanced search-path construction,
executable path resolution with stub detection, the liveness-probe
event machine, and the validation report.

The definitions below are a shallow embedding of the TypeScript
module (`getSystemArchKey`, `buildEnhancedPath`, `getExecutablePath`,
`validateExecutable`, `getValidationReport`).  Filesystem state is an
explicit map from paths to file entries; the possibility that `stat`
or `readFile` throws is modelled by per-entry failure flags.
-/

set_option autoImplicit false

namespace Packaging

/-- The possible values of `process.platform` in the Node.js runtime. -/
inductive Platform where
  | aix | android | cygwin | darwin | freebsd | haiku | linux | netbsd | openbsd | sunos | win32
  deriving DecidableEq, Repr, Fintype

/-- String rendering of `process.platform`. -/
def Platform.toStr : Platform → String
  | .aix => "aix"
  | .android => "android"
  | .cygwin => "cygwin"
  | .darwin => "darwin"
  | .freebsd => "freebsd"
  | .haiku => "haiku"
  | .linux => "linux"
  | .netbsd => "netbsd"
  | .openbsd => "openbsd"
  | .sunos => "sunos"
  | .win32 => "win32"

/-- The possible values of `process.arch` in the Node.js runtime. -/
inductive Arch where
  | arm | arm64 | ia32 | loong64 | mips | mipsel | ppc | ppc64 | riscv64 | s390 | s390x | x64
  deriving DecidableEq, Repr, Fintype

/-- String rendering of `process.arch`. -/
def Arch.toStr : Arch → String
  | .arm => "arm"
  | .arm64 => "arm64"
  | .ia32 => "ia32"
  | .loong64 => "loong64"
  | .mips => "mips"
  | .mipsel => "mipsel"
  | .ppc => "ppc"
  | .ppc64 => "ppc64"
  | .riscv64 => "riscv64"
  | .s390 => "s390"
  | .s390x => "s390x"
  | .x64 => "x64"

/-- Embedding of `getSystemArchKey`: darwin distinguishes arm64 from x64,
linux and win32 are pinned to x64, any other platform yields the raw
`platform-arch` string. -/
def getSystemArchKey (platform : Platform) (arch : Arch) : String :=
  match platform with
  | .darwin => if arch = .arm64 then "darwin-arm64" else "darwin-x64"
  | .linux => "linux-x64"
  | .win32 => "win32-x64"
  | _ => platform.toStr ++ "-" ++ arch.toStr

/-- A declared packaged dependency: logical name, executable name, and the
platform-arch keyed table of relative bundle paths. -/
structure Dependency where
  name : String
  executable : String
  paths : List (String × String)
  deriving DecidableEq, Repr

/-- First-match lookup in a dependency's path table (the object-property
access `dep.paths[archKey]`). -/
def findPath : List (String × String) → String → Option String
  | [], _ => none
  | (k, v) :: rest, key => if k = key then some v else findPath rest key

/-- The `uv` entry of `PACKAGED_DEPENDENCIES`. -/
def uvDep : Dependency :=
  { name := "uv"
    executable := "uv"
    paths :=
      [ ("darwin-arm64", "vendor/uv-darwin-arm64/uv-aarch64-apple-darwin/uv")
      , ("darwin-x64", "vendor/uv-darwin-x64/uv-x86_64-apple-darwin/uv")
      , ("linux-x64", "vendor/uv-linux-x64/uv-x86_64-unknown-linux-gnu/uv")
      , ("win32-x64", "vendor/uv-win32-x64/uv-x86_64-pc-windows-msvc/uv.exe") ] }

/-- The `node` entry of `PACKAGED_DEPENDENCIES`. -/
def nodeDep : Dependency :=
  { name := "node"
    executable := "node"
    paths :=
      [ ("darwin-arm64", "vendor/node-darwin-arm64/node-v20.18.0-darwin-arm64/bin/node")
      , ("darwin-x64", "vendor/node-darwin-x64/node-v20.18.0-darwin-x64/bin/node")
      , ("linux-x64", "vendor/node-linux-x64/node-v20.18.0-linux-x64/bin/node")
      , ("win32-x64", "vendor/node-win32-x64/node-v20.18.0-win-x64/node.exe") ] }

/-- The static dependency table, in declaration order. -/
def PACKAGED_DEPENDENCIES : List Dependency := [uvDep, nodeDep]

/-- A file visible to the resolver: its size, its content, and whether the
asynchronous `stat` / `readFile` calls on it throw (permission error, race). -/
structure FileEntry where
  size : Nat
  content : String
  statFails : Bool
  readFails : Bool
  deriving DecidableEq, Repr

/-- Filesystem state: `none` means the path does not exist (`existsSync`
is false). -/
def FileSystem := String → Option FileEntry

/-- `path.join(resourcesPath, "app.asar.unpacked", relativePath)` (POSIX
separator). -/
def joinPath (resourcesPath relativePath : String) : String :=
  resourcesPath ++ "/app.asar.unpacked/" ++ relativePath

/-- Split a character list at a separator character. -/
def splitChars (sep : Char) : List Char → List (List Char)
  | [] => [[]]
  | c :: rest =>
    match splitChars sep rest with
    | [] => [[]]
    | h :: t => if c = sep then [] :: h :: t else (c :: h) :: t

/-- Split a string at a separator character (`s.split(sep)`). -/
def splitOnSep (s : String) (sep : Char) : List String :=
  (splitChars sep s.data).map (fun l => String.mk l)

/-- Join a list of strings with a separator (`parts.join(sep)`). -/
def joinSep (sep : String) : List String → String
  | [] => ""
  | [x] => x
  | x :: y :: rest => x ++ sep ++ joinSep sep (y :: rest)

/-- `path.dirname` on a slash-separated path: everything before the last
separator. -/
def dirnameStr (s : String) : String :=
  joinSep "/" (splitOnSep s '/').dropLast

/-- `s.startsWith(pre)`. -/
def strStartsWith (s pre : String) : Bool :=
  pre.data.isPrefixOf s.data

/-- Substring containment, `s.includes(pat)`. -/
def containsSubstr (s pat : String) : Bool :=
  go s.data
where
  /-- Does the pattern occur as a prefix of any suffix of the text? -/
  go : List Char → Bool
    | [] => pat.data.isEmpty
    | c :: rest => pat.data.isPrefixOf (c :: rest) || go rest

/-- Whether `s.trim()` is empty: every character is whitespace.  The source
filters search-path entries by the truthiness of `p.trim()`, i.e. keeps
exactly the entries that are not blank. -/
def isBlank (s : String) : Bool :=
  s.data.all Char.isWhitespace

/-- The stub-detection test applied to the content of a suspiciously small
bundle file: `content.startsWith("#!/bin/bash") || content.includes("echo")`. -/
def isStubScript (content : String) : Bool :=
  strStartsWith content "#!/bin/bash" || containsSubstr content "echo"

/-- Embedding of `getExecutablePath`.  In packaged mode it resolves the
dependency via the static table and the derived arch key, validates an
existing small file against the stub signature, and falls back to the bare
command name on stub detection or validation I/O failure; a missing bundle
file falls back to the bare name only for `node`.  In development mode it
returns the bare name unconditionally. -/
def getExecutablePath (packaged : Bool) (platform : Platform) (arch : Arch)
    (resourcesPath : String) (fs : FileSystem) (executable : String) : Option String :=
  if packaged then
    match PACKAGED_DEPENDENCIES.find? (fun d => d.name == executable) with
    | none => none
    | some dep =>
      match findPath dep.paths (getSystemArchKey platform arch) with
      | none => none
      | some rel =>
        match fs (joinPath resourcesPath rel) with
        | some e =>
          if e.statFails then some executable
          else if e.size < 1000 then
            if e.readFails then some executable
            else if isStubScript e.content then some executable
            else some (joinPath resourcesPath rel)
          else some (joinPath resourcesPath rel)
        | none => if executable == "node" then some executable else none
  else some executable

/-- Order-preserving deduplication relative to an already-seen set. -/
def dedupFirstAux (seen : List String) : List String → List String
  | [] => []
  | x :: xs =>
    if x ∈ seen then dedupFirstAux seen xs
    else x :: dedupFirstAux (x :: seen) xs

/-- Order-preserving deduplication, first occurrence wins
(`Array.from(new Set(xs))`). -/
def dedupFirst (l : List String) : List String :=
  dedupFirstAux [] l

/-- The directory contributed to the search path by one dependency: the
parent directory of its unpacked bundle path when that file exists,
nothing otherwise (or when the arch key has no table entry). -/
def depDir (platform : Platform) (arch : Arch) (resourcesPath : String)
    (fs : FileSystem) (dep : Dependency) : List String :=
  match findPath dep.paths (getSystemArchKey platform arch) with
  | some rel =>
    if (fs (joinPath resourcesPath rel)).isSome then
      [dirnameStr (joinPath resourcesPath rel)]
    else []
  | none => []

/-- The entry list of the enhanced search path before joining: the inherited
`PATH` value as the initial (last-resort) entry, each found bundle directory
prepended in declaration order, blank entries filtered out, then
deduplicated first-occurrence-wins. -/
def enhancedPathParts (packaged : Bool) (platform : Platform) (arch : Arch)
    (envPATH : Option String) (resourcesPath : String) (fs : FileSystem) : List String :=
  let basePath := envPATH.getD ""
  let withDeps :=
    if packaged then
      PACKAGED_DEPENDENCIES.foldl
        (fun parts dep => depDir platform arch resourcesPath fs dep ++ parts)
        [basePath]
    else [basePath]
  dedupFirst (withDeps.filter (fun p => !isBlank p))

/-- Embedding of `buildEnhancedPath`: the deduplicated entries joined with
the OS-appropriate separator. -/
def buildEnhancedPath (packaged : Bool) (platform : Platform) (arch : Arch)
    (envPATH : Option String) (resourcesPath : String) (fs : FileSystem) : String :=
  joinSep (if platform = .win32 then ";" else ":")
    (enhancedPathParts packaged platform arch envPATH resourcesPath fs)

/-- The bundle directories prepended by `buildEnhancedPath`, in the order
they end up in front of the inherited path (reverse declaration order). -/
def bundleDirsRev (packaged : Bool) (platform : Platform) (arch : Arch)
    (resourcesPath : String) (fs : FileSystem) : List String :=
  if packaged then
    PACKAGED_DEPENDENCIES.foldl
      (fun parts dep => depDir platform arch resourcesPath fs dep ++ parts) []
  else []

/-- State of the `validateExecutable` promise: whether it has settled, the
value it resolved with, whether `process.kill` was ever invoked on the
child, and whether the timeout timer was cleared. -/
structure ProbeState where
  isResolved : Bool
  resolvedValue : Option Bool
  killed : Bool
  timeoutCleared : Bool
  deriving DecidableEq, Repr

/-- The state before any event has fired. -/
def initProbe : ProbeState :=
  { isResolved := false, resolvedValue := none, killed := false, timeoutCleared := false }

/-- The `cleanup` closure: kills the child only if the promise has not yet
been marked resolved. -/
def cleanup (s : ProbeState) : ProbeState :=
  if s.isResolved then s else { s with isResolved := true, killed := true }

/-- The `resolveWith` closure: on first call it marks the promise resolved,
runs `cleanup`, and records the resolution value; later calls are no-ops. -/
def resolveWith (v : Bool) (s : ProbeState) : ProbeState :=
  if s.isResolved then s
  else
    let s1 := { s with isResolved := true }
    let s2 := cleanup s1
    { s2 with resolvedValue := some v }

/-- The events the spawned probe process can deliver: the `close`, `error`
and `exit` listeners (each also clears the timeout timer), and the firing
of the 3000 ms timeout timer. -/
inductive ProbeEvent where
  | close (code : Option Int)
  | error
  | exit (code : Option Int)
  | timeout
  deriving DecidableEq, Repr

/-- The registered handlers for a single event. -/
def handleEvent (s : ProbeState) : ProbeEvent → ProbeState
  | .close code => { resolveWith (code == some 0) s with timeoutCleared := true }
  | .error => { resolveWith false s with timeoutCleared := true }
  | .exit code => { resolveWith (code == some 0) s with timeoutCleared := true }
  | .timeout => resolveWith false s

/-- Run the probe's event machine over a sequence of delivered events. -/
def runProbe (events : List ProbeEvent) : ProbeState :=
  events.foldl handleEvent initProbe

/-- One dependency's line in the validation report. -/
structure DepReport where
  path : Option String
  available : Bool
  deriving DecidableEq, Repr

/-- Embedding of `getValidationReport`'s dependency map: for each declared
dependency, the resolved path and the result of running the liveness probe
on the dependency's logical name.  The probe's outcome is abstracted as an
oracle from command strings to booleans. -/
def getValidationReport (validate : String → Bool) (packaged : Bool)
    (platform : Platform) (arch : Arch) (resourcesPath : String)
    (fs : FileSystem) : List (String × DepReport) :=
  PACKAGED_DEPENDENCIES.map (fun dep =>
    (dep.name,
      { path := getExecutablePath packaged platform arch resourcesPath fs dep.name
        available := validate dep.name }))

/-- The empty filesystem: no bundle file exists anywhere. -/
def fsEmpty : FileSystem := fun _ => none

/-- Expected unpacked bundle path of `node` with resources root `/r` on
`linux-x64`. -/
def nodeBinLinux : String :=
  "/r/app.asar.unpacked/vendor/node-linux-x64/node-v20.18.0-linux-x64/bin/node"

/-- Expected unpacked bundle path of `uv` with resources root `/r` on
`linux-x64`. -/
def uvBinLinux : String :=
  "/r/app.asar.unpacked/vendor/uv-linux-x64/uv-x86_64-unknown-linux-gnu/uv"

/-- Containing directory of the `uv` bundle binary on `linux-x64`. -/
def uvDirLinux : String :=
  "/r/app.asar.unpacked/vendor/uv-linux-x64/uv-x86_64-unknown-linux-gnu"

/-- A filesystem whose only file is a small shell script at the `node`
bundle path that starts with a shebang but never invokes `echo`. -/
def fsShebangNoEcho : FileSystem := fun p =>
  if p = nodeBinLinux then
    some { size := 18, content := "#!/bin/bash\nexit 1", statFails := false, readFails := false }
  else none

/-- A filesystem whose only file is the canonical stub
`#!/bin/bash\necho "x"` at the `node` bundle path. -/
def fsStubEcho : FileSystem := fun p =>
  if p = nodeBinLinux then
    some { size := 20, content := "#!/bin/bash\necho \"x\"", statFails := false, readFails := false }
  else none

/-- A filesystem with a 5 MB `uv` binary at its expected bundle path. -/
def fsUvBig : FileSystem := fun p =>
  if p = uvBinLinux then
    some { size := 5000000, content := "", statFails := false, readFails := false }
  else none

/-- A filesystem with a 5 MB `node` binary at its expected bundle path. -/
def fsNodeBig : FileSystem := fun p =>
  if p = nodeBinLinux then
    some { size := 5000000, content := "", statFails := false, readFails := false }
  else none

/-- A filesystem where the small file at the `node` bundle path exists but
reading its content throws. -/
def fsReadFail : FileSystem := fun p =>
  if p = nodeBinLinux then
    some { size := 10, content := "", statFails := false, readFails := true }
  else none

/-! ### Helper lemmas -/

/-- Members of the deduplicated list come from the input and avoid the
already-seen set. -/
lemma mem_dedupFirstAux {a : String} :
    ∀ (l seen : List String), a ∈ dedupFirstAux seen l → a ∈ l ∧ a ∉ seen := by
  intro l
  induction l with
  | nil => intro seen h; simp [dedupFirstAux] at h
  | cons x xs ih =>
    intro seen h
    by_cases hx : x ∈ seen
    · simp only [dedupFirstAux, if_pos hx] at h
      rcases ih seen h with ⟨h1, h2⟩
      exact ⟨List.mem_cons_of_mem _ h1, h2⟩
    · simp only [dedupFirstAux, if_neg hx] at h
      rcases List.mem_cons.mp h with rfl | h
      · exact ⟨List.mem_cons_self _ _, hx⟩
      · rcases ih _ h with ⟨h1, h2⟩
        refine ⟨List.mem_cons_of_mem _ h1, fun hmem => h2 (List.mem_cons_of_mem _ hmem)⟩

/-- Deduplication produces a list without duplicates. -/
lemma dedupFirstAux_nodup : ∀ (l seen : List String), (dedupFirstAux seen l).Nodup := by
  intro l
  induction l with
  | nil => intro seen; simp [dedupFirstAux]
  | cons x xs ih =>
    intro seen
    by_cases hx : x ∈ seen
    · simpa only [dedupFirstAux, if_pos hx] using ih seen
    · simp only [dedupFirstAux, if_neg hx]
      refine List.nodup_cons.mpr ⟨fun hmem => ?_, ih _⟩
      exact (mem_dedupFirstAux _ _ hmem).2 (List.mem_cons_self _ _)

/-- Deduplication produces a list without duplicates. -/
lemma dedupFirst_nodup (l : List String) : (dedupFirst l).Nodup :=
  dedupFirstAux_nodup l []

/-- A final element that occurs nowhere earlier survives deduplication in
final position. -/
lemma dedupFirstAux_append_singleton {b : String} :
    ∀ (l seen : List String), b ∉ l → b ∉ seen →
      dedupFirstAux seen (l ++ [b]) = dedupFirstAux seen l ++ [b] := by
  intro l
  induction l with
  | nil => intro seen _ h2; simp [dedupFirstAux, h2]
  | cons x xs ih =>
    intro seen hb1 hb2
    have hbx : b ≠ x := fun h => hb1 (h ▸ List.mem_cons_self _ _)
    have hbxs : b ∉ xs := fun h => hb1 (List.mem_cons_of_mem _ h)
    by_cases hx : x ∈ seen
    · simp only [List.cons_append, dedupFirstAux, if_pos hx]
      exact ih _ hbxs hb2
    · have hb2' : b ∉ x :: seen := by
        intro h
        rcases List.mem_cons.mp h with h | h
        · exact hbx h
        · exact hb2 h
      simp only [List.cons_append, dedupFirstAux, if_neg hx, List.append_eq]
      rw [ih _ hbxs hb2']

/-- A final element that occurs nowhere earlier survives deduplication in
final position. -/
lemma dedupFirst_append_singleton {b : String} (l : List String) (hb : b ∉ l) :
    dedupFirst (l ++ [b]) = dedupFirst l ++ [b] :=
  dedupFirstAux_append_singleton l [] hb (by simp)

/-- Prepending-style folds over the dependency table factor through the
empty accumulator. -/
lemma foldl_depDir_eq_append (platform : Platform) (arch : Arch) (rp : String) (fs : FileSystem) :
    ∀ (l : List Dependency) (init : List String),
      l.foldl (fun parts dep => depDir platform arch rp fs dep ++ parts) init
        = l.foldl (fun parts dep => depDir platform arch rp fs dep ++ parts) [] ++ init := by
  intro l
  induction l with
  | nil => intro init; simp
  | cons d ds ih =>
    intro init
    simp only [List.foldl_cons]
    rw [ih (depDir platform arch rp fs d ++ init), ih (depDir platform arch rp fs d ++ [])]
    simp

/-- The search-path entry list is the deduplicated, blank-filtered
concatenation of the prepended bundle directories with the inherited path
as final entry. -/
lemma enhancedPathParts_eq (packaged : Bool) (platform : Platform) (arch : Arch)
    (env : Option String) (rp : String) (fs : FileSystem) :
    enhancedPathParts packaged platform arch env rp fs
      = dedupFirst ((bundleDirsRev packaged platform arch rp fs
          ++ [env.getD ""]).filter (fun p => !isBlank p)) := by
  unfold enhancedPathParts bundleDirsRev
  cases packaged
  · simp
  · simp only [if_pos]
    rw [foldl_depDir_eq_append]

/-! ### Claim theorems -/

/-- C6: in development mode (packaged flag false), `getExecutablePath`
returns the bare logical command name unmodified for every executable
argument and every filesystem state; the result is independent of the
filesystem, so no filesystem check can influence it. -/
theorem getExecutablePath_dev_mode (platform : Platform) (arch : Arch)
    (rp : String) (fs : FileSystem) (executable : String) :
    getExecutablePath false platform arch rp fs executable = some executable := by
  simp [getExecutablePath]

/-- C5: in packaged mode, when the bundle file exists at the expected
absolute path, `stat` succeeds, and the size is at least the 1000-byte
threshold, `getExecutablePath` returns that absolute path unchanged; the
content and the read-failure flag are universally quantified, so the
result does not depend on the file content — the size check short-circuits
the read. -/
theorem getExecutablePath_large_file (platform : Platform) (arch : Arch) (rp : String)
    (fs : FileSystem) (executable : String) (dep : Dependency) (rel : String)
    (size : Nat) (content : String) (rf : Bool)
    (hdep : PACKAGED_DEPENDENCIES.find? (fun d => d.name == executable) = some dep)
    (hrel : findPath dep.paths (getSystemArchKey platform arch) = some rel)
    (hfs : fs (joinPath rp rel)
      = some { size := size, content := content, statFails := false, readFails := rf })
    (hsize : 1000 ≤ size) :
    getExecutablePath true platform arch rp fs executable = some (joinPath rp rel) := by
  simp [getExecutablePath, hdep, hrel, hfs, Nat.not_lt.mpr hsize]

/-- Witness for C5: a 5 MB `uv` binary at its expected `linux-x64` bundle
path resolves to that absolute path. -/
theorem getExecutablePath_large_file_witness :
    getExecutablePath true .linux .x64 "/r" fsUvBig "uv" = some uvBinLinux := by
  rw [getExecutablePath_large_file .linux .x64 "/r" fsUvBig "uv" uvDep
    "vendor/uv-linux-x64/uv-x86_64-unknown-linux-gnu/uv" 5000000 "" false
    (by decide) (by decide) (by decide) (by decide)]
  decide

/-- C1 counterexample: a 18-byte file at the expected `node` bundle path
whose content is `#!/bin/bash\nexit 1` starts with a shebang but contains
no `echo` invocation; under the claim's conjunctive stub signature it
would be returned as the absolute path, but the resolver falls back to the
bare command name. -/
theorem getExecutablePath_shebang_only_counterexample :
    getExecutablePath true .linux .x64 "/r" fsShebangNoEcho "node" = some "node"
    ∧ getExecutablePath true .linux .x64 "/r" fsShebangNoEcho "node" ≠ some nodeBinLinux := by
  decide

/-- C1 (amended): in packaged mode, for an existing bundle file below the
1000-byte threshold with successful `stat` and read, the resolver falls
back to the bare command name exactly when the content starts with
`#!/bin/bash` OR contains `echo` anywhere (a disjunction, not a
conjunction); a small file matching neither condition is returned as the
absolute path. -/
theorem getExecutablePath_small_file_stub_or (platform : Platform) (arch : Arch)
    (rp : String) (fs : FileSystem) (executable : String) (dep : Dependency)
    (rel : String) (e : FileEntry)
    (hdep : PACKAGED_DEPENDENCIES.find? (fun d => d.name == executable) = some dep)
    (hrel : findPath dep.paths (getSystemArchKey platform arch) = some rel)
    (hfs : fs (joinPath rp rel) = some e)
    (hstat : e.statFails = false) (hsize : e.size < 1000) (hread : e.readFails = false) :
    getExecutablePath true platform arch rp fs executable =
      if isStubScript e.content then some executable else some (joinPath rp rel) := by
  simp [getExecutablePath, hdep, hrel, hfs, hstat, hsize, hread]

/-- Witness for C1 (amended): the canonical stub `#!/bin/bash\necho "x"`
at the expected `node` bundle path resolves to the fallback command name,
not the stub's absolute path. -/
theorem getExecutablePath_small_file_stub_or_witness :
    getExecutablePath true .linux .x64 "/r" fsStubEcho "node" = some "node" := by
  rw [getExecutablePath_small_file_stub_or .linux .x64 "/r" fsStubEcho "node" nodeDep
    "vendor/node-linux-x64/node-v20.18.0-linux-x64/bin/node"
    { size := 20, content := "#!/bin/bash\necho \"x\"", statFails := false, readFails := false }
    (by decide) (by decide) (by decide) (by decide) (by decide) (by decide)]
  decide

/-- C7 counterexample: in development mode with a whitespace-only
inherited `PATH` value, `buildEnhancedPath` returns the empty string, not
the inherited value byte-for-byte (the blank-entry filter drops it). -/
theorem buildEnhancedPath_dev_blank_counterexample :
    buildEnhancedPath false .linux .x64 (some " ") "/r" fsEmpty = ""
    ∧ (" " : String) ≠ "" := by
  decide

/-- C7 (amended): in development mode `buildEnhancedPath` returns the
inherited search-path string byte-for-byte unchanged whenever that string
is not whitespace-only, and the empty string otherwise (in particular when
`PATH` is unset); no bundle lookup influences the result, which is
independent of the filesystem. -/
theorem buildEnhancedPath_dev_mode (platform : Platform) (arch : Arch)
    (env : Option String) (rp : String) (fs : FileSystem) :
    buildEnhancedPath false platform arch env rp fs
      = if isBlank (env.getD "") then "" else env.getD "" := by
  unfold buildEnhancedPath enhancedPathParts
  cases h : isBlank (env.getD "")
  · simp [h, dedupFirst, dedupFirstAux, joinSep]
  · simp [h, dedupFirst, dedupFirstAux, joinSep]

/-- C3 counterexample: with inherited `PATH` equal to the `uv` bundle
directory followed by `:/bin`, and the `uv` bundle file present, the
returned string repeats the bundle directory: deduplication treats the
whole inherited path as a single opaque entry, so directory-level
duplicates survive. -/
theorem buildEnhancedPath_duplicate_dirs_counterexample :
    buildEnhancedPath true .linux .x64
        (some "/r/app.asar.unpacked/vendor/uv-linux-x64/uv-x86_64-unknown-linux-gnu:/bin")
        "/r" fsUvBig
      = uvDirLinux ++ ":" ++ uvDirLinux ++ ":/bin"
    ∧ ¬ (splitOnSep (buildEnhancedPath true .linux .x64
        (some "/r/app.asar.unpacked/vendor/uv-linux-x64/uv-x86_64-unknown-linux-gnu:/bin")
        "/r" fsUvBig) ':').Nodup := by
  decide

/-- C3 (amended): the entry list joined by `buildEnhancedPath` contains no
duplicate entries, where the whole inherited search path counts as one
single opaque entry (so a directory inside it may still duplicate a
prepended bundle directory at directory granularity); whenever the
inherited path is not whitespace-only and is not itself equal to one of
the prepended bundle directories, it is the final, lowest-priority entry,
with the resolved bundle directories prepended before it. -/
theorem buildEnhancedPath_entries_nodup_base_last
    (packaged : Bool) (platform : Platform) (arch : Arch) (env : Option String)
    (rp : String) (fs : FileSystem)
    (h1 : isBlank (env.getD "") = false)
    (h2 : env.getD "" ∉ bundleDirsRev packaged platform arch rp fs) :
    (enhancedPathParts packaged platform arch env rp fs).Nodup
    ∧ enhancedPathParts packaged platform arch env rp fs
        = dedupFirst ((bundleDirsRev packaged platform arch rp fs).filter (fun p => !isBlank p))
          ++ [env.getD ""]
    ∧ (enhancedPathParts packaged platform arch env rp fs).getLast? = some (env.getD "") := by
  have hfilter : (bundleDirsRev packaged platform arch rp fs
        ++ [env.getD ""]).filter (fun p => !isBlank p)
      = (bundleDirsRev packaged platform arch rp fs).filter (fun p => !isBlank p)
        ++ [env.getD ""] := by
    rw [List.filter_append]
    simp [h1]
  have hb : env.getD ""
      ∉ (bundleDirsRev packaged platform arch rp fs).filter (fun p => !isBlank p) :=
    fun hmem => h2 (List.mem_of_mem_filter hmem)
  have heq : enhancedPathParts packaged platform arch env rp fs
      = dedupFirst ((bundleDirsRev packaged platform arch rp fs).filter (fun p => !isBlank p))
        ++ [env.getD ""] := by
    rw [enhancedPathParts_eq, hfilter, dedupFirst_append_singleton _ hb]
  refine ⟨?_, heq, ?_⟩
  · rw [enhancedPathParts_eq]
    exact dedupFirst_nodup _
  · rw [heq]
    exact List.getLast?_concat _

/-- Witness for C3 (amended): packaged mode on `linux-x64` with `PATH`
`/bin` and the `uv` bundle present gives the deduplicated entry list with
the bundle directory first and `/bin` last. -/
theorem buildEnhancedPath_entries_nodup_base_last_witness :
    (enhancedPathParts true .linux .x64 (some "/bin") "/r" fsUvBig).Nodup
    ∧ enhancedPathParts true .linux .x64 (some "/bin") "/r" fsUvBig
        = dedupFirst ((bundleDirsRev true .linux .x64 "/r" fsUvBig).filter (fun p => !isBlank p))
          ++ ["/bin"]
    ∧ (enhancedPathParts true .linux .x64 (some "/bin") "/r" fsUvBig).getLast? = some "/bin" :=
  buildEnhancedPath_entries_nodup_base_last true .linux .x64 (some "/bin") "/r" fsUvBig
    (by decide) (by decide)

/-- C8: the platform-arch key is `darwin-arm64`/`darwin-x64` on the Apple
desktop OS according to the reported architecture, `linux-x64` and
`win32-x64` on Linux and Windows regardless of the reported architecture,
and for any unrecognized OS it is the raw `os-arch` string, which matches
no entry in either dependency's static path table. -/
theorem getSystemArchKey_spec :
    (∀ a : Arch, getSystemArchKey .darwin a
        = if a = .arm64 then "darwin-arm64" else "darwin-x64")
    ∧ (∀ a : Arch, getSystemArchKey .linux a = "linux-x64")
    ∧ (∀ a : Arch, getSystemArchKey .win32 a = "win32-x64")
    ∧ (∀ (p : Platform) (a : Arch), p ≠ .darwin → p ≠ .linux → p ≠ .win32 →
        getSystemArchKey p a = p.toStr ++ "-" ++ a.toStr
        ∧ findPath uvDep.paths (getSystemArchKey p a) = none
        ∧ findPath nodeDep.paths (getSystemArchKey p a) = none) := by
  refine ⟨fun a => rfl, fun a => rfl, fun a => rfl, ?_⟩
  decide

/-- Witness for C8: an unrecognized OS (`aix` on `x64`) yields the raw key
`aix-x64`, which has no entry in either path table. -/
theorem getSystemArchKey_spec_witness :
    getSystemArchKey .aix .x64 = "aix-x64"
    ∧ findPath uvDep.paths (getSystemArchKey .aix .x64) = none
    ∧ findPath nodeDep.paths (getSystemArchKey .aix .x64) = none := by
  have h := getSystemArchKey_spec.2.2.2 .aix .x64 (by decide) (by decide) (by decide)
  refine ⟨?_, h.2.1, h.2.2⟩
  rw [h.1]
  decide

/-- `handleEvent` never invokes `process.kill`: `cleanup` only runs inside
`resolveWith` after `isResolved` has already been set, so its guard is
always false. -/
lemma handleEvent_killed (s : ProbeState) (e : ProbeEvent) :
    (handleEvent s e).killed = s.killed := by
  cases e <;> simp only [handleEvent, resolveWith, cleanup] <;> split <;> simp

/-- Once the promise is resolved, later events change neither the resolved
value nor the resolved flag. -/
lemma handleEvent_of_resolved (s : ProbeState) (h : s.isResolved = true) (e : ProbeEvent) :
    (handleEvent s e).resolvedValue = s.resolvedValue
    ∧ (handleEvent s e).isResolved = true := by
  cases e <;> simp [handleEvent, resolveWith, h]

/-- Folding further events over a resolved state keeps the resolved
value. -/
lemma foldl_handleEvent_resolved (events : List ProbeEvent) :
    ∀ s : ProbeState, s.isResolved = true →
      (events.foldl handleEvent s).resolvedValue = s.resolvedValue := by
  induction events with
  | nil => intro s _; rfl
  | cons e es ih =>
    intro s h
    rcases handleEvent_of_resolved s h e with ⟨h1, h2⟩
    simp only [List.foldl_cons]
    rw [ih _ h2, h1]

/-- The killed flag is invariant under the whole event fold. -/
lemma foldl_handleEvent_killed (events : List ProbeEvent) :
    ∀ s : ProbeState, (events.foldl handleEvent s).killed = s.killed := by
  induction events with
  | nil => intro s; rfl
  | cons e es ih =>
    intro s
    simp only [List.foldl_cons]
    rw [ih _, handleEvent_killed]

/-- C2: when the 3000 ms timeout fires before any process event, the
promise resolves to `false` (and stays so whatever events arrive later),
but the spawned child is never killed — in fact `process.kill` is
unreachable on every event sequence, because `resolveWith` sets
`isResolved` before calling `cleanup`, whose `!isResolved` guard then
skips the kill. -/
theorem validateExecutable_timeout_no_kill :
    (∀ rest : List ProbeEvent,
      (runProbe (ProbeEvent.timeout :: rest)).resolvedValue = some false
      ∧ (runProbe (ProbeEvent.timeout :: rest)).killed = false)
    ∧ (∀ events : List ProbeEvent, (runProbe events).killed = false) := by
  have h0 : handleEvent initProbe ProbeEvent.timeout
      = { isResolved := true, resolvedValue := some false, killed := false,
          timeoutCleared := false } := by decide
  constructor
  · intro rest
    constructor
    · unfold runProbe
      simp only [List.foldl_cons, h0]
      exact foldl_handleEvent_resolved rest _ rfl
    · unfold runProbe
      simp only [List.foldl_cons, h0]
      rw [foldl_handleEvent_killed]
  · intro events
    unfold runProbe
    rw [foldl_handleEvent_killed]
    rfl

/-- C4: in packaged mode `getExecutablePath` is total (never an
exception): an unknown dependency name or a missing platform-arch mapping
resolves to unavailable (`none`); every result is `none`, the absolute
path built from the resources root, the unpacked marker directory and the
table's relative path, or the bare command name; and an I/O failure while
validating an existing file (`stat` throwing, or `readFile` throwing on a
small file) resolves to the fallback command name, never propagates. -/
theorem getExecutablePath_error_handling :
    (∀ (platform : Platform) (arch : Arch) (rp : String) (fs : FileSystem)
        (executable : String),
      PACKAGED_DEPENDENCIES.find? (fun d => d.name == executable) = none →
      getExecutablePath true platform arch rp fs executable = none)
    ∧ (∀ (platform : Platform) (arch : Arch) (rp : String) (fs : FileSystem)
        (executable : String) (dep : Dependency),
      PACKAGED_DEPENDENCIES.find? (fun d => d.name == executable) = some dep →
      findPath dep.paths (getSystemArchKey platform arch) = none →
      getExecutablePath true platform arch rp fs executable = none)
    ∧ (∀ (platform : Platform) (arch : Arch) (rp : String) (fs : FileSystem)
        (executable : String),
      getExecutablePath true platform arch rp fs executable = none
      ∨ (∃ dep rel, PACKAGED_DEPENDENCIES.find? (fun d => d.name == executable) = some dep
          ∧ findPath dep.paths (getSystemArchKey platform arch) = some rel
          ∧ getExecutablePath true platform arch rp fs executable = some (joinPath rp rel))
      ∨ getExecutablePath true platform arch rp fs executable = some executable)
    ∧ (∀ (platform : Platform) (arch : Arch) (rp : String) (fs : FileSystem)
        (executable : String) (dep : Dependency) (rel : String) (e : FileEntry),
      PACKAGED_DEPENDENCIES.find? (fun d => d.name == executable) = some dep →
      findPath dep.paths (getSystemArchKey platform arch) = some rel →
      fs (joinPath rp rel) = some e →
      e.statFails = true →
      getExecutablePath true platform arch rp fs executable = some executable)
    ∧ (∀ (platform : Platform) (arch : Arch) (rp : String) (fs : FileSystem)
        (executable : String) (dep : Dependency) (rel : String) (e : FileEntry),
      PACKAGED_DEPENDENCIES.find? (fun d => d.name == executable) = some dep →
      findPath dep.paths (getSystemArchKey platform arch) = some rel →
      fs (joinPath rp rel) = some e →
      e.statFails = false → e.size < 1000 → e.readFails = true →
      getExecutablePath true platform arch rp fs executable = some executable) := by
  refine ⟨?_, ?_, ?_, ?_, ?_⟩
  · intro platform arch rp fs executable hd
    simp [getExecutablePath, hd]
  · intro platform arch rp fs executable dep hd hr
    simp [getExecutablePath, hd, hr]
  · intro platform arch rp fs executable
    cases hd : PACKAGED_DEPENDENCIES.find? (fun d => d.name == executable) with
    | none => exact Or.inl (by simp [getExecutablePath, hd])
    | some dep =>
      cases hr : findPath dep.paths (getSystemArchKey platform arch) with
      | none => exact Or.inl (by simp [getExecutablePath, hd, hr])
      | some rel =>
        cases hfs : fs (joinPath rp rel) with
        | none =>
          cases he : executable == "node" with
          | false => exact Or.inl (by simp [getExecutablePath, hd, hr, hfs, he])
          | true => exact Or.inr (Or.inr (by simp [getExecutablePath, hd, hr, hfs, he]))
        | some e =>
          cases hstat : e.statFails with
          | true => exact Or.inr (Or.inr (by simp [getExecutablePath, hd, hr, hfs, hstat]))
          | false =>
            by_cases hsz : e.size < 1000
            · cases hread : e.readFails with
              | true =>
                exact Or.inr (Or.inr
                  (by simp [getExecutablePath, hd, hr, hfs, hstat, hsz, hread]))
              | false =>
                cases hstub : isStubScript e.content with
                | true =>
                  exact Or.inr (Or.inr
                    (by simp [getExecutablePath, hd, hr, hfs, hstat, hsz, hread, hstub]))
                | false =>
                  exact Or.inr (Or.inl ⟨dep, rel, rfl, hr,
                    by simp [getExecutablePath, hd, hr, hfs, hstat, hsz, hread, hstub]⟩)
            · exact Or.inr (Or.inl ⟨dep, rel, rfl, hr,
                by simp [getExecutablePath, hd, hr, hfs, hstat, hsz]⟩)
  · intro platform arch rp fs executable dep rel e hd hr hfs hstat
    simp [getExecutablePath, hd, hr, hfs, hstat]
  · intro platform arch rp fs executable dep rel e hd hr hfs hstat hsz hread
    simp [getExecutablePath, hd, hr, hfs, hstat, hsz, hread]

/-- Witness for C4: a small `node` bundle file whose read throws resolves
to the fallback command name `node`. -/
theorem getExecutablePath_error_handling_witness :
    getExecutablePath true .linux .x64 "/r" fsReadFail "node" = some "node" :=
  getExecutablePath_error_handling.2.2.2.2 .linux .x64 "/r" fsReadFail "node" nodeDep
    "vendor/node-linux-x64/node-v20.18.0-linux-x64/bin/node"
    { size := 10, content := "", statFails := false, readFails := true }
    (by decide) (by decide) (by decide) (by decide) (by decide) (by decide)

/-- C9: in the validation report each dependency's `available` flag is the
liveness probe applied to the dependency's bare logical name, never to the
resolved path; consequently a dependency can be reported with a resolved
absolute bundled path and `available = false` (5 MB `node` bundle, probe
failing), and with `available = true` while its path is unavailable
(`uv` with empty filesystem, probe succeeding). -/
theorem getValidationReport_probes_name :
    (∀ (validate : String → Bool) (packaged : Bool) (platform : Platform) (arch : Arch)
        (rp : String) (fs : FileSystem),
      getValidationReport validate packaged platform arch rp fs =
        [("uv", { path := getExecutablePath packaged platform arch rp fs "uv",
                  available := validate "uv" }),
         ("node", { path := getExecutablePath packaged platform arch rp fs "node",
                    available := validate "node" })])
    ∧ getValidationReport (fun _ => false) true .linux .x64 "/r" fsNodeBig =
        [("uv", { path := none, available := false }),
         ("node", { path := some nodeBinLinux, available := false })]
    ∧ getValidationReport (fun _ => true) true .linux .x64 "/r" fsEmpty =
        [("uv", { path := none, available := true }),
         ("node", { path := some "node", available := true })] := by
  exact ⟨fun validate packaged platform arch rp fs => rfl, by decide, by decide⟩

/-- C10: in packaged mode on each of the three supported platforms,
`getExecutablePath "node"` never resolves to unavailable: the `node` table
has an entry for every supported platform-arch key, and every branch —
valid binary, stub detection, validation I/O failure, and missing bundle
file — returns either the absolute bundle path or the bare string
`node`. -/
theorem getExecutablePath_node_always_resolves (platform : Platform) (arch : Arch)
    (rp : String) (fs : FileSystem)
    (h : platform = .darwin ∨ platform = .linux ∨ platform = .win32) :
    (getExecutablePath true platform arch rp fs "node").isSome = true := by
  obtain ⟨rel, hrel⟩ :
      ∃ rel, findPath nodeDep.paths (getSystemArchKey platform arch) = some rel := by
    rcases h with rfl | rfl | rfl
    · rcases eq_or_ne arch .arm64 with rfl | ha
      · exact ⟨"vendor/node-darwin-arm64/node-v20.18.0-darwin-arm64/bin/node", by decide⟩
      · have hk : getSystemArchKey Platform.darwin arch = "darwin-x64" := by
          simp [getSystemArchKey, ha]
        exact ⟨"vendor/node-darwin-x64/node-v20.18.0-darwin-x64/bin/node",
          by rw [hk]; decide⟩
    · exact ⟨"vendor/node-linux-x64/node-v20.18.0-linux-x64/bin/node", rfl⟩
    · exact ⟨"vendor/node-win32-x64/node-v20.18.0-win-x64/node.exe", rfl⟩
  have hfind : PACKAGED_DEPENDENCIES.find? (fun d => d.name == "node") = some nodeDep := by
    decide
  cases hfs : fs (joinPath rp rel) with
  | none => simp [getExecutablePath, hfind, hrel, hfs]
  | some e =>
    simp only [getExecutablePath, if_true, hfind, hrel, hfs]
    split
    · rfl
    · split
      · split
        · rfl
        · split <;> rfl
      · rfl

/-- Witness for C10: on `linux-x64` with no bundle files at all, the
resolver still produces a value for `node` (the fallback name). -/
theorem getExecutablePath_node_always_resolves_witness :
    (getExecutablePath true .linux .x64 "/r" fsEmpty "node").isSome = true :=
  getExecutablePath_node_always_resolves .linux .x64 "/r" fsEmpty (Or.inr (Or.inl rfl))

end Packaging
